import Mathlib

/-!
A shallow embedding of the RESEARCH-WEB server (src/index.js): URL
normalization and the host denylist, the in-memory result cache, HTML
fetch clipping, prompt construction, the Groq model client, and the
POST /analyze orchestrator, together with theorems about the specified
behaviour.

JavaScript strings are modelled as Lean `String` values (sequences of
characters). Platform builtins (`new URL`, `JSON.parse`,
`String.prototype.trim`) are modelled from their standards; each model
notes its simplifications in its doc comment.
-/

namespace ResearchWeb

/-- Characters removed by JS `String.prototype.trim` (the WhiteSpace and
LineTerminator code points of ECMA-262; the common subset). -/
def jsWhitespaceChar (c : Char) : Bool :=
  c.toNat = 9 || c.toNat = 10 || c.toNat = 11 || c.toNat = 12 || c.toNat = 13 ||
  c.toNat = 32 || c.toNat = 160 || c.toNat = 0x2028 || c.toNat = 0x2029 || c.toNat = 0xFEFF

/-- Model of `s.trim()`. -/
def jsTrim (s : String) : String :=
  String.mk (((s.data.dropWhile jsWhitespaceChar).reverse.dropWhile jsWhitespaceChar).reverse)

/-- Model of `x || dflt` for an optional string: absent (`undefined`) and
the empty string are falsy. -/
def jsOr (x : Option String) (dflt : String) : String :=
  match x with
  | none => dflt
  | some s => if s = "" then dflt else s

/-- Model of `s.startsWith(p)`. -/
def jsStartsWith (s p : String) : Bool := p.data.isPrefixOf s.data

/-- Model of `s.endsWith(p)`. -/
def jsEndsWith (s p : String) : Bool := p.data.isSuffixOf s.data

/-- Model of `s.toLowerCase()` (ASCII range; hostnames here are ASCII). -/
def jsToLower (s : String) : String := String.mk (s.data.map Char.toLower)

/-- Model of `s.slice(0, n)`. -/
def jsSlice (s : String) (n : Nat) : String := String.mk (s.data.take n)

/-- JSON values. Numbers are restricted to integers: no fraction or
exponent literals occur in any payload this development evaluates. -/
inductive Json where
  | null : Json
  | bool : Bool → Json
  | num : Int → Json
  | str : String → Json
  | arr : List Json → Json
  | obj : List (String × Json) → Json

/-- JS truthiness of a JSON value (used by `if (cached)` and
`if (!content)` in src/index.js). -/
def jsTruthy : Json → Bool
  | .null => false
  | .bool b => b
  | .num n => n != 0
  | .str s => s != ""
  | .arr _ => true
  | .obj _ => true

def quoteC : Char := Char.ofNat 34
def backslashC : Char := Char.ofNat 92
def lbraceC : Char := Char.ofNat 123
def rbraceC : Char := Char.ofNat 125

def jsonWs (c : Char) : Bool := c.toNat = 32 || c.toNat = 9 || c.toNat = 10 || c.toNat = 13

def skipWs (cs : List Char) : List Char := cs.dropWhile jsonWs

def escChar (e : Char) : Option Char :=
  if e = quoteC then some quoteC
  else if e = backslashC then some backslashC
  else if e = '/' then some '/'
  else if e = 'n' then some (Char.ofNat 10)
  else if e = 't' then some (Char.ofNat 9)
  else if e = 'r' then some (Char.ofNat 13)
  else if e = 'b' then some (Char.ofNat 8)
  else if e = 'f' then some (Char.ofNat 12)
  else none

/-- Body of a JSON string literal, after the opening quote. `\uXXXX`
escapes are not modelled; none occur in the payloads evaluated here. -/
def parseStrChars : List Char → Option (List Char × List Char)
  | [] => none
  | c :: rest =>
    if c = quoteC then some ([], rest)
    else if c = backslashC then
      match rest with
      | [] => none
      | e :: rest' =>
        match escChar e with
        | none => none
        | some d => (parseStrChars rest').map (fun p => (d :: p.1, p.2))
    else if c.toNat < 32 then none
    else (parseStrChars rest).map (fun p => (c :: p.1, p.2))

def digitsToNat (ds : List Char) : Nat := ds.foldl (fun a c => a * 10 + (c.toNat - 48)) 0

/-- An unsigned JSON integer literal (leading zeros rejected; fraction
and exponent forms not modelled). -/
def parseNatPart (cs : List Char) : Option (Nat × List Char) :=
  let p := cs.span Char.isDigit
  match p.1 with
  | [] => none
  | d :: ds =>
    if d = '0' && !ds.isEmpty then none
    else match p.2 with
      | '.' :: _ => none
      | 'e' :: _ => none
      | 'E' :: _ => none
      | _ => some (digitsToNat (d :: ds), p.2)

def parseNumTok (cs : List Char) : Option (Json × List Char) :=
  match cs with
  | '-' :: rest => (parseNatPart rest).map (fun p => (Json.num (-(p.1 : Int)), p.2))
  | _ => (parseNatPart cs).map (fun p => (Json.num (p.1 : Int), p.2))

mutual

/-- Fuel-indexed recursive-descent JSON value parser. -/
def parseValueF : Nat → List Char → Option (Json × List Char)
  | 0, _ => none
  | n+1, cs =>
    match skipWs cs with
    | [] => none
    | c :: rest =>
      if c = lbraceC then
        match skipWs rest with
        | [] => none
        | c2 :: r2 =>
          if c2 = rbraceC then some (Json.obj [], r2)
          else (parseObjTailF n (c2 :: r2)).map (fun p => (Json.obj p.1, p.2))
      else if c = '[' then
        match skipWs rest with
        | [] => none
        | c2 :: r2 =>
          if c2 = ']' then some (Json.arr [], r2)
          else (parseArrTailF n (c2 :: r2)).map (fun p => (Json.arr p.1, p.2))
      else if c = quoteC then (parseStrChars rest).map (fun p => (Json.str (String.mk p.1), p.2))
      else if c = 'n' then (match rest with | 'u' :: 'l' :: 'l' :: r => some (Json.null, r) | _ => none)
      else if c = 't' then (match rest with | 'r' :: 'u' :: 'e' :: r => some (Json.bool true, r) | _ => none)
      else if c = 'f' then (match rest with | 'a' :: 'l' :: 's' :: 'e' :: r => some (Json.bool false, r) | _ => none)
      else parseNumTok (c :: rest)

/-- One or more comma-separated array elements followed by `]`. -/
def parseArrTailF : Nat → List Char → Option (List Json × List Char)
  | 0, _ => none
  | n+1, cs =>
    match parseValueF n cs with
    | none => none
    | some (j, r) =>
      match skipWs r with
      | [] => none
      | c :: r' =>
        if c = ',' then (parseArrTailF n r').map (fun p => (j :: p.1, p.2))
        else if c = ']' then some ([j], r')
        else none

/-- One or more comma-separated object members followed by a closing
brace. -/
def parseObjTailF : Nat → List Char → Option (List (String × Json) × List Char)
  | 0, _ => none
  | n+1, cs =>
    match skipWs cs with
    | [] => none
    | c :: r =>
      if c = quoteC then
        match parseStrChars r with
        | none => none
        | some (k, r1) =>
          match skipWs r1 with
          | [] => none
          | c2 :: r2 =>
            if c2 = ':' then
              match parseValueF n r2 with
              | none => none
              | some (v, r3) =>
                match skipWs r3 with
                | [] => none
                | c3 :: r4 =>
                  if c3 = ',' then
                    (parseObjTailF n r4).map (fun p => ((String.mk k, v) :: p.1, p.2))
                  else if c3 = rbraceC then some ([(String.mk k, v)], r4)
                  else none
            else none
      else none

end

/-- Model of `JSON.parse`: parses one value with trailing whitespace
only. (Simplifications as noted on the lexer helpers above.) -/
def Json.parse (s : String) : Option Json :=
  match parseValueF (s.data.length + 1) s.data with
  | some (j, rest) => if skipWs rest = [] then some j else none
  | none => none

/-- The cache TTL, `CACHE_TTL_MS = 10 * 60 * 1000` (src/index.js:38). -/
def CACHE_TTL_MS : Nat := 10 * 60 * 1000

structure CacheEntry where
  value : Json
  expires : Nat

/-- The in-memory `cache` Map, modelled as an association list with
unique keys (JS `Map` insertion order is not relevant to any claim). -/
abbrev Cache := List (String × CacheEntry)

def eraseKey (k : String) (c : Cache) : Cache := c.filter (fun p => p.1 != k)

/-- Model of `cache.get(key)`. -/
def cacheFind (c : Cache) (k : String) : Option CacheEntry :=
  (c.find? (fun p => p.1 == k)).map (fun p => p.2)

/-- Model of `setCache` (src/index.js:40-42). `Map.set` keyed uniqueness
is modelled by erasing any previous binding for the key. -/
def setCache (k : String) (v : Json) (now : Nat) (c : Cache) : Cache :=
  (k, ⟨v, now + CACHE_TTL_MS⟩) :: eraseKey k c

/-- Model of `getCache` (src/index.js:43-51). `Date.now()` is the `now`
argument; the function returns the looked-up value together with the
possibly mutated cache (lazy deletion of an expired entry). -/
def getCache (k : String) (now : Nat) (c : Cache) : Option Json × Cache :=
  match cacheFind c k with
  | none => (none, c)
  | some e => if now > e.expires then (none, eraseKey k c) else (some e.value, c)

/-- Parsed-URL record (the WHATWG URL model, simplified: no IDNA, no
percent-decoding, no IPv4/IPv6 canonicalisation; see `parseURL`). -/
structure UrlRec where
  scheme : String
  hasAuthority : Bool
  userinfo : Option String
  host : String
  port : Option Nat
  path : String
  query : Option String
  fragment : Option String
deriving DecidableEq

/-- The WHATWG special schemes. -/
def isSpecialScheme (s : String) : Bool :=
  s == "http" || s == "https" || s == "ws" || s == "wss" || s == "ftp" || s == "file"

def defaultPort (s : String) : Option Nat :=
  if s == "http" || s == "ws" then some 80
  else if s == "https" || s == "wss" then some 443
  else if s == "ftp" then some 21
  else none

/-- Input preprocessing of the URL parser: strip leading and trailing
C0-control-or-space, remove all ASCII tab and newline characters. -/
def urlPreprocess (s : String) : List Char :=
  let cs := ((s.data.dropWhile (fun c => decide (c.toNat ≤ 32))).reverse.dropWhile
    (fun c => decide (c.toNat ≤ 32))).reverse
  cs.filter (fun c => c.toNat != 9 && c.toNat != 10 && c.toNat != 13)

def isSchemeChar (c : Char) : Bool := c.isAlphanum || c = '+' || c = '-' || c = '.'

/-- Split a leading `scheme:` (ASCII alpha, then alphanumeric or
`+` `-` `.`, then a colon); the scheme is lowercased. -/
def splitScheme (cs : List Char) : Option (String × List Char) :=
  match cs with
  | [] => none
  | c :: rest =>
    if c.isAlpha then
      let p := rest.span isSchemeChar
      match p.2 with
      | d :: r => if d = ':' then some (jsToLower (String.mk (c :: p.1)), r) else none
      | [] => none
    else none

/-- Code points that make a host invalid (the forbidden host code
points; `%` is treated as forbidden since percent-decoding is not
modelled). -/
def forbiddenHostChar (c : Char) : Bool :=
  c.toNat = 0 || c.toNat = 9 || c.toNat = 10 || c.toNat = 13 || c = ' ' || c = '#' ||
  c = '/' || c = ':' || c = '<' || c = '>' || c = '?' || c = '@' || c = '[' ||
  c = backslashC || c = ']' || c = '^' || c = '|' || c = '%'

/-- Split an authority at its last `@` into optional userinfo and
host-port. -/
def splitAtLastAt (cs : List Char) : Option (List Char) × List Char :=
  if cs.contains '@' then
    let r := cs.reverse
    let p := r.span (fun c => c != '@')
    (some ((p.2.drop 1).reverse), p.1.reverse)
  else (none, cs)

/-- Port text: empty is no port; otherwise decimal digits at most 65535,
with the scheme's default port normalised away. Returns `none` on an
invalid port. -/
def parsePort (cs : List Char) (scheme : String) : Option (Option Nat) :=
  if cs.isEmpty then some none
  else if cs.all Char.isDigit then
    let n := digitsToNat cs
    if n > 65535 then none
    else if defaultPort scheme == some n then some none else some (some n)
  else none

def joinSep (sep : String) : List String → String
  | [] => ""
  | [s] => s
  | s :: rest => s ++ sep ++ joinSep sep rest

def splitChar : List Char → Char → List (List Char)
  | [], _ => [[]]
  | c :: rest, sep =>
    match splitChar rest sep with
    | [] => [[]]
    | h :: t => if c = sep then [] :: h :: t else (c :: h) :: t

/-- Single-dot and double-dot path segment removal of the URL path
parser. -/
def dotSegs : List String → List String → List String
  | [], acc => acc.reverse
  | s :: rest, acc =>
    if s = "." then
      match rest with
      | [] => acc.reverse ++ [""]
      | _ => dotSegs rest acc
    else if s = ".." then
      match rest with
      | [] => acc.tail.reverse ++ [""]
      | _ => dotSegs rest acc.tail
    else dotSegs rest (s :: acc)

/-- Serialize the path of an authority-carrying URL; for special schemes
backslashes separate segments too and an empty path serializes as a
single slash. -/
def serializePath (special : Bool) (raw : List Char) : String :=
  let raw := if special then raw.map (fun c => if c = backslashC then '/' else c) else raw
  match raw with
  | [] => if special then "/" else ""
  | c :: rest =>
    if c = '/' then
      let segs := dotSegs ((splitChar rest '/').map String.mk) []
      "/" ++ joinSep "/" segs
    else String.mk raw

/-- Parse an authority (between the slashes and the path) plus the raw
path, producing the URL record. -/
def parseAuthority (scheme : String) (special : Bool) (auth : List Char) (pathRaw : List Char)
    (query frag : Option String) : Option UrlRec :=
  let ui := splitAtLastAt auth
  let hp := ui.2.span (fun c => c != ':')
  let portRes : Option (Option Nat) :=
    match hp.2 with
    | [] => some none
    | _ :: pcs => parsePort pcs scheme
  match portRes with
  | none => none
  | some port =>
    if special && hp.1.isEmpty then none
    else if hp.1.any forbiddenHostChar then none
    else
      some { scheme, hasAuthority := true,
             userinfo := ui.1.map String.mk,
             host := if special then jsToLower (String.mk hp.1) else String.mk hp.1,
             port,
             path := serializePath special pathRaw, query, fragment := frag }

/-- Parse everything after `scheme:`. Special schemes skip any run of
slashes and then read an authority; non-special schemes read an
authority only after exactly `//`, and are otherwise opaque-path
URLs. -/
def parseAfterScheme (scheme : String) (special : Bool) (cs : List Char) : Option UrlRec :=
  let p1 := cs.span (fun c => c != '#')
  let frag : Option String := match p1.2 with | [] => none | _ :: f => some (String.mk f)
  let p2 := p1.1.span (fun c => c != '?')
  let query : Option String := match p2.2 with | [] => none | _ :: q => some (String.mk q)
  let body := p2.1
  if special then
    let rest := body.dropWhile (fun c => c = '/' || c = backslashC)
    let pAuth := rest.span (fun c => !(c = '/' || c = backslashC))
    parseAuthority scheme true pAuth.1 pAuth.2 query frag
  else
    match body with
    | '/' :: '/' :: rest =>
      let pAuth := rest.span (fun c => c != '/')
      parseAuthority scheme false pAuth.1 pAuth.2 query frag
    | _ => some { scheme, hasAuthority := false, userinfo := none, host := "", port := none,
                  path := String.mk body, query, fragment := frag }

/-- Model of the WHATWG `new URL(input)` constructor (no base URL).
Simplifications: hosts are validated against the forbidden code points
and lowercased, but IDNA/punycode, percent-decoding and IPv4/IPv6
canonicalisation are not modelled (no input evaluated here needs
them). -/
def parseURL (s : String) : Option UrlRec :=
  match splitScheme (urlPreprocess s) with
  | none => none
  | some (scheme, rest) => parseAfterScheme scheme (isSpecialScheme scheme) rest

/-- Model of `url.toString()` / `url.href` (the URL serializer). -/
def urlToString (u : UrlRec) : String :=
  u.scheme ++ ":" ++
  (if u.hasAuthority then
     "//" ++ (match u.userinfo with | some ui => ui ++ "@" | none => "") ++
     u.host ++ (match u.port with | some p => ":" ++ toString p | none => "")
   else "") ++
  u.path ++
  (match u.query with | some q => "?" ++ q | none => "") ++
  (match u.fragment with | some f => "#" ++ f | none => "")

/-- The regex test `/^https?:\/\//i.test(input)` (src/index.js:55). -/
def startsWithHttpScheme (s : String) : Bool :=
  jsStartsWith (jsToLower s) "http://" || jsStartsWith (jsToLower s) "https://"

/-- Model of `normalizeUrl` (src/index.js:53-61): the `try/catch` around
`new URL` becomes the `Option`. -/
def normalizeUrl (input : String) : Option String :=
  let hasProto := startsWithHttpScheme input
  match parseURL (if hasProto then input else "https://" ++ input) with
  | some u => some (urlToString u)
  | none => none

/-- The trim-then-normalize composition the orchestrator applies to the
request's `url` field (src/index.js:231-232). -/
def normalize (s : String) : Option String := normalizeUrl (jsTrim s)

/-- Model of `isAllowedUrl` (src/index.js:63-82): the `try/catch` around
`new URL` becomes the `none` branch returning `false`. -/
def isAllowedUrl (url : String) : Bool :=
  match parseURL url with
  | none => false
  | some u =>
    let hostname := jsToLower u.host
    if hostname == "localhost" || jsEndsWith hostname ".localhost" ||
       jsEndsWith hostname ".local" || jsEndsWith hostname ".internal" ||
       hostname == "127.0.0.1" || hostname == "0.0.0.0"
    then false else true

/-- The default credential literal embedded at src/index.js:33. -/
def defaultGroqApiKey : String := "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"

/-- Model of `GROQ_API_KEY = process.env.GROQ_API_KEY || "gsk_..."`
(src/index.js:33) over the optional environment value; an absent or
empty variable is falsy. -/
def GROQ_API_KEY (env : Option String) : String := jsOr env defaultGroqApiKey

def GROQ_ENDPOINT : String := "https://api.groq.com/openai/v1/chat/completions"

/-- The Authorization header value `callGroq` sends (src/index.js:206). -/
def groqAuthHeader (env : Option String) : String := "Bearer " ++ GROQ_API_KEY env

/-- The relevant view of a node-fetch `Response`. -/
structure NetResp where
  status : Nat
  statusText : String
  body : String

/-- `res.ok`: the status is in the inclusive range 200-299. -/
def respOk (r : NetResp) : Bool := decide (200 ≤ r.status) && decide (r.status < 300)

/-- `MAX_HTML_LENGTH = 800_000` (src/index.js:103). -/
def MAX_HTML_LENGTH : Nat := 800000

/-- Model of `fetchSiteHTML` (src/index.js:84-108) over a network
oracle giving the upstream response for each URL. The request headers
do not affect the modelled dataflow; the 15-second abort timer is
real-time behaviour outside this embedding. -/
def fetchSiteHTML (net : String -> NetResp) (targetUrl : String) : Except String String :=
  let res := net targetUrl
  if !respOk res then
    .error ("Upstream fetch failed: " ++ toString res.status ++ " " ++ res.statusText)
  else
    let html := res.body
    if html.length > MAX_HTML_LENGTH then .ok (jsSlice html MAX_HTML_LENGTH) else .ok html

/-- A chat message of the prompt. -/
structure Message where
  role : String
  content : String
deriving DecidableEq

def systemContent : String :=
  "You are RESEARCH-WEB, an expert web intelligence analyst. Return ONLY strict JSON. Do not include markdown, prose, or code fences."

def userPart1 : String :=
  "Analyze the following website using its URL and raw HTML.\nURL: "

def userPart2 : String :=
  "\n\nReturn a strict JSON object with this schema:\n\n\x7b\n  \"site\": \x7b\n    \"url\": \"string\",\n    \"title\": \"string\",\n    \"description\": \"string\",\n    \"language\": \"string\",\n    \"frameworks\": [\"string\"],\n    \"libraries\": [\"string\"],\n    \"cms\": \"string | null\",\n    \"runtime\": \"string | null\",\n    \"hosting\": \"string | null\",\n    \"cdn\": \"string | null\",\n    \"analytics\": [\"string\"],\n    \"tag_managers\": [\"string\"],\n    \"seo\": \x7b\n      \"meta_title\": \"string\",\n      \"meta_description\": \"string\",\n      \"h1\": \"string | null\",\n      \"canonical\": \"string | null\",\n      \"schema_org\": [\"string\"]\n    \x7d,\n    \"performance\": \x7b\n      \"page_weight_kb\": \"number\",\n      \"image_optimization\": \"string\",\n      \"lazy_loading\": \"boolean\",\n      \"script_count\": \"number\",\n      \"notable_third_parties\": [\"string\"]\n    \x7d,\n    \"ads\": \x7b\n      \"has_ads\": \"boolean\",\n      \"ad_networks\": [\"string\"],\n      \"placements\": [\"string\"]\n    \x7d,\n    \"monetization\": \x7b\n      \"models\": [\"string\"], \n      \"subscriptions\": \"boolean\",\n      \"affiliate\": \"boolean\",\n      \"ecommerce\": \"boolean\"\n    \x7d,\n    \"privacy_security\": \x7b\n      \"cookie_banner\": \"boolean\",\n      \"gdpr_ccpa_mentions\": [\"string\"],\n      \"security_headers\": [\"string\"]\n    \x7d,\n    \"audience\": \x7b\n      \"target_segments\": [\"string\"],\n      \"regions\": [\"string\"]\n    \x7d,\n    \"competitors\": [\"string\"],\n    \"traffic_estimate\": \x7b\n      \"confidence\": \"low | medium | high\",\n      \"monthly_visits_range\": \"string\"\n    \x7d,\n    \"contact\": \x7b\n      \"emails\": [\"string\"],\n      \"phones\": [\"string\"],\n      \"socials\": [\"string\"]\n    \x7d,\n    \"key_features\": [\"string\"],\n    \"summary\": \"string\",\n    \"recommendations\": [\"string\"]\n  \x7d\n\x7d\n\nRules:\n- Base findings ONLY on provided HTML and URL; infer cautiously and mark confidence via \x27traffic_estimate.confidence\x27.\n- Populate arrays with distinct items; avoid duplicates.\n- If unknown, use null or empty array appropriately.\n- Keep descriptions concise and concrete.\n- Ensure valid JSON and correct types.\n\nHTML BEGIN\n"

def userPart3 : String :=
  "\nHTML END"


/-- Model of `buildPrompt` (src/index.js:110-200): the fixed system
message and the user message interpolating the URL and the page HTML
into the literal template of the source. -/
def buildPrompt (url : String) (html : String) : List Message :=
  [ { role := "system", content := systemContent },
    { role := "user", content := userPart1 ++ url ++ userPart2 ++ html ++ userPart3 } ]

/-- The failure modes of `callGroq` (src/index.js:202-226): a non-2xx
service status (with the captured status, reason and body text), a
response body that is not JSON (`res.json()` throwing), a missing or
falsy content field, and content that fails `JSON.parse`. -/
inductive GroqError where
  | apiError (status : Nat) (statusText : String) (body : String)
  | invalidResponseJson
  | noContent
  | contentParseError (content : Json)

/-- JS property access `j[k]` on a JSON value (non-objects have no such
property; `JSON.parse` keeps the last of duplicate keys, hence the
reverse-find). -/
def jsGet (j : Json) (k : String) : Option Json :=
  match j with
  | .obj fs => (fs.reverse.find? (fun p => p.1 == k)).map (fun p => p.2)
  | _ => none

def jsIndex (j : Json) (i : Nat) : Option Json :=
  match j with
  | .arr xs => xs[i]?
  | _ => none

/-- The optional-chaining extraction `data?.choices?.[0]?.message?.content`
(src/index.js:222). -/
def extractContent (data : Json) : Option Json :=
  (((jsGet data "choices").bind (fun c => jsIndex c 0)).bind
    (fun m => jsGet m "message")).bind (fun m => jsGet m "content")

/-- `JSON.parse(content)` (src/index.js:224), where JS coerces a
non-string argument with `String()`: string contents parse exactly,
scalar contents coerce to their own literals, and array/object contents
(whose coercions are not JSON texts in general) are modelled as parse
failures. -/
def parseContent : Json -> Option Json
  | .str s => Json.parse s
  | .num n => some (.num n)
  | .bool b => some (.bool b)
  | .null => some .null
  | .arr _ => none
  | .obj _ => none

/-- Model of `callGroq` (src/index.js:202-226) over a network oracle
giving the model service's response for each prompt. -/
def callGroq (gq : List Message -> NetResp) (prompt : List Message) : Except GroqError Json :=
  let res := gq prompt
  if !respOk res then .error (.apiError res.status res.statusText res.body)
  else
    match Json.parse res.body with
    | none => .error .invalidResponseJson
    | some data =>
      match extractContent data with
      | none => .error .noContent
      | some content =>
        if !jsTruthy content then .error .noContent
        else
          match parseContent content with
          | none => .error (.contentParseError content)
          | some parsed => .ok parsed

/-- The `err.message` string each `GroqError` surfaces through the
orchestrator's catch. The first three follow the thrown `Error`
messages of the source; the engine-generated `SyntaxError` text of a
`JSON.parse` failure is modelled by a fixed form. -/
def groqErrorMessage : GroqError -> String
  | .apiError s t b => "Groq API error: " ++ toString s ++ " " ++ t ++ " " ++ b
  | .invalidResponseJson => "invalid json response body"
  | .noContent => "Groq API returned no content"
  | .contentParseError _ => "Unexpected token in JSON"

/-- A `res.status(..).json(..)` error payload. -/
def errBody (msg : String) : Json := Json.obj [("error", Json.str msg)]

/-- A `res.json(\x7b cached, data \x7d)` success payload. -/
def okBody (cached : Bool) (data : Json) : Json :=
  Json.obj [("cached", Json.bool cached), ("data", data)]

/-- Outcome of one `POST /analyze` request: the HTTP response, the cache
after the request, and how many times the page fetch and the model
service were invoked. -/
structure AnalyzeOut where
  status : Nat
  body : Json
  cache : Cache
  fetchCalls : Nat
  groqCalls : Nat

/-- The cache-miss tail of the handler: fetch, build the prompt, call
the model, store and respond (src/index.js:245-250); a thrown error is
the 500 branch of the catch (src/index.js:251-254). -/
def analyzeMiss (url : String) (now : Nat) (cache1 : Cache) (net : String -> NetResp)
    (gq : List Message -> NetResp) : AnalyzeOut :=
  match fetchSiteHTML net url with
  | .error e => { status := 500, body := errBody e, cache := cache1, fetchCalls := 1, groqCalls := 0 }
  | .ok html =>
    let prompt := buildPrompt url html
    match callGroq gq prompt with
    | .error e =>
      { status := 500, body := errBody (groqErrorMessage e), cache := cache1,
        fetchCalls := 1, groqCalls := 1 }
    | .ok analysis =>
      { status := 200, body := okBody false analysis, cache := setCache url analysis now cache1,
        fetchCalls := 1, groqCalls := 1 }

/-- Model of the `POST /analyze` handler (src/index.js:229-255): trim
and normalize the requested address, deny-check it, consult the cache
(JS truthiness on the cached value), and otherwise run the pipeline.
The handler is a total function: every error of the pipeline is mapped
to a 500 response by the catch, never a crash. -/
def analyze (reqUrl : Option String) (now : Nat) (cache : Cache) (net : String -> NetResp)
    (gq : List Message -> NetResp) : AnalyzeOut :=
  let rawUrl := jsTrim (jsOr reqUrl "")
  match normalizeUrl rawUrl with
  | none => { status := 400, body := errBody "Invalid URL", cache, fetchCalls := 0, groqCalls := 0 }
  | some url =>
    if !isAllowedUrl url then
      { status := 400, body := errBody "URL not allowed", cache, fetchCalls := 0, groqCalls := 0 }
    else
      let lr := getCache url now cache
      match lr.1 with
      | some v =>
        if jsTruthy v then
          { status := 200, body := okBody true v, cache := lr.2, fetchCalls := 0, groqCalls := 0 }
        else analyzeMiss url now lr.2 net gq
      | none => analyzeMiss url now lr.2 net gq

/-! ## Spec-side definitions for the refinement claims -/

/-- Modelled from the spec's words (§4.1): an input "has a scheme" when
it begins with URL-scheme syntax — an ASCII letter, then letters,
digits, `+`, `-` or `.`, then a colon. -/
def hasScheme (s : String) : Bool := (splitScheme s.data).isSome

/-- Modelled from the spec (§4.1), amended per the counterexample: trim
the input; prepend the default secure scheme exactly when the trimmed
input does not already start with `http://` or `https://`
case-insensitively (not merely when it lacks a scheme); parse as a URL
and return the canonical serialized address, rejecting any input that
does not parse. -/
def normalizeSpecAmended (input : String) : Option String :=
  let t := jsTrim input
  let candidate := if startsWithHttpScheme t then t else "https://" ++ t
  (parseURL candidate).map urlToString

/-! ## Helper lemmas -/

theorem cacheFind_eraseKey (k : String) (c : Cache) : cacheFind (eraseKey k c) k = none := by
  induction c with
  | nil => rfl
  | cons p rest ih =>
    by_cases h : p.1 = k
    · simp only [eraseKey, List.filter_cons, h, bne_self_eq_false, Bool.false_eq_true,
        if_false]
      exact ih
    · simp only [eraseKey, List.filter_cons] at ih ⊢
      rw [if_pos (by simp [bne_iff_ne, h])]
      simp only [cacheFind] at ih ⊢
      rw [List.find?_cons_of_neg _ (by simp [h])]
      exact ih

/-! ## Claims -/

/-- C1: the external-service credential does NOT fail closed: with no
environment credential (absent or empty), `GROQ_API_KEY` evaluates to
the shipped literal key and `callGroq`'s Authorization header carries
it, so the program neither refuses to start nor refuses to call the
model service. -/
theorem groq_default_credential_used :
    GROQ_API_KEY none = defaultGroqApiKey
    ∧ GROQ_API_KEY (some "") = defaultGroqApiKey
    ∧ defaultGroqApiKey ≠ ""
    ∧ groqAuthHeader none = "Bearer " ++ defaultGroqApiKey := by
  exact ⟨rfl, rfl, by decide, rfl⟩

/-- C2 (counterexample): `"ftp://x"` has a scheme, so by the claim no
scheme would be prepended and the result would be the canonical form
`"ftp://x/"`; the code nevertheless prepends `https://` (its test only
recognises http/https) and returns `"https://ftp//x"`. -/
theorem normalize_scheme_counterexample :
    hasScheme "ftp://x" = true
    ∧ (parseURL "ftp://x").map urlToString = some "ftp://x/"
    ∧ normalize "ftp://x" = some "https://ftp//x"
    ∧ ("https://ftp//x" : String) ≠ "ftp://x/" := by
  exact ⟨rfl, rfl, rfl, by decide⟩

/-- C2 (amended): normalization trims the input, prepends `https://`
exactly when the trimmed input does not start with `http://` or
`https://` case-insensitively, then parses as a URL and returns the
canonical absolute address; every input that does not parse even after
the insertion (the empty string, illegal characters) is rejected. -/
theorem normalize_amended :
    (∀ s, normalize s = normalizeSpecAmended s)
    ∧ normalize "example.com" = some "https://example.com/"
    ∧ normalize "  example.com " = some "https://example.com/"
    ∧ normalize "HTTP://Example.Com" = some "http://example.com/"
    ∧ normalize "" = none
    ∧ normalize "a b" = none := by
  refine ⟨?_, rfl, rfl, rfl, rfl, rfl⟩
  intro s
  simp only [normalize, normalizeUrl, normalizeSpecAmended]
  cases h : parseURL (if startsWithHttpScheme (jsTrim s) then jsTrim s
      else "https://" ++ jsTrim s) <;> simp [h]

/-- C3: for every address the URL parser accepts, `isAllowedUrl` is
false exactly when the lowercased hostname is `localhost`, `127.0.0.1`
or `0.0.0.0`, or ends in `.localhost`, `.local` or `.internal`; in
particular it is false on the normalizations of `localhost`,
`127.0.0.1`, `0.0.0.0`, `a.local`, `b.internal`, `c.localhost`, and
true on that of `example.com`. -/
theorem isAllowed_denylist :
    (∀ (url : String) (u : UrlRec), parseURL url = some u →
      ((isAllowedUrl url = false) ↔
        (jsToLower u.host = "localhost" ∨ jsToLower u.host = "127.0.0.1" ∨
         jsToLower u.host = "0.0.0.0" ∨ jsEndsWith (jsToLower u.host) ".localhost" = true ∨
         jsEndsWith (jsToLower u.host) ".local" = true ∨
         jsEndsWith (jsToLower u.host) ".internal" = true)))
    ∧ (normalizeUrl "localhost").map isAllowedUrl = some false
    ∧ (normalizeUrl "127.0.0.1").map isAllowedUrl = some false
    ∧ (normalizeUrl "0.0.0.0").map isAllowedUrl = some false
    ∧ (normalizeUrl "a.local").map isAllowedUrl = some false
    ∧ (normalizeUrl "b.internal").map isAllowedUrl = some false
    ∧ (normalizeUrl "c.localhost").map isAllowedUrl = some false
    ∧ (normalizeUrl "example.com").map isAllowedUrl = some true := by
  refine ⟨?_, rfl, rfl, rfl, rfl, rfl, rfl, rfl⟩
  intro url u h
  simp only [isAllowedUrl, h]
  split
  next hc =>
    simp only [Bool.or_eq_true, beq_iff_eq] at hc
    constructor
    · intro _; tauto
    · intro _; rfl
  next hc =>
    constructor
    · intro htrue; exact absurd htrue (by simp)
    · intro hr
      exfalso
      apply hc
      simp only [Bool.or_eq_true, beq_iff_eq]
      tauto

/-- Witness for the quantified part of `isAllowed_denylist`. -/
theorem isAllowed_denylist_witness : isAllowedUrl "https://b.internal/" = false := by
  have h : parseURL "https://b.internal/" =
      some { scheme := "https", hasAuthority := true, userinfo := none, host := "b.internal",
             port := none, path := "/", query := none, fragment := none } := by rfl
  exact (isAllowed_denylist.1 _ _ h).mpr
    (Or.inr (Or.inr (Or.inr (Or.inr (Or.inr rfl)))))

/-- C4: the TTL is ten minutes; a `setCache` followed by an immediate
`getCache` of the same key returns the value and leaves the cache
unchanged; a read strictly after the entry's expiry time returns
absent and deletes the entry, so no entry for the key remains. -/
theorem cache_roundtrip_expiry :
    CACHE_TTL_MS = 10 * 60 * 1000
    ∧ (∀ (k : String) (v : Json) (now : Nat) (c : Cache),
        getCache k now (setCache k v now c) = (some v, setCache k v now c))
    ∧ (∀ (k : String) (v : Json) (now t : Nat) (c : Cache),
        now + CACHE_TTL_MS < t →
          (getCache k t (setCache k v now c)).1 = none
          ∧ cacheFind (getCache k t (setCache k v now c)).2 k = none) := by
  refine ⟨rfl, ?_, ?_⟩
  · intro k v now c
    simp [getCache, cacheFind, setCache, List.find?_cons,
      Nat.not_lt_of_le (Nat.le_add_right now CACHE_TTL_MS)]
  · intro k v now t c hexp
    have hfind : cacheFind (setCache k v now c) k = some ⟨v, now + CACHE_TTL_MS⟩ := by
      simp [cacheFind, setCache, List.find?_cons]
    have hgc : getCache k t (setCache k v now c) = (none, eraseKey k (setCache k v now c)) := by
      simp [getCache, hfind, hexp]
    rw [hgc]
    exact ⟨rfl, cacheFind_eraseKey k _⟩

/-- Witness for the hypotheses of `cache_roundtrip_expiry`. -/
theorem cache_roundtrip_expiry_witness :
    (0 + CACHE_TTL_MS < 600001)
    ∧ (getCache "k" 600001 (setCache "k" (Json.str "r") 0 [])).1 = none
    ∧ cacheFind (getCache "k" 600001 (setCache "k" (Json.str "r") 0 [])).2 "k" = none := by
  have h : (0 : Nat) + CACHE_TTL_MS < 600001 := by decide
  exact ⟨h, (cache_roundtrip_expiry.2.2 "k" (Json.str "r") 0 600001 [] h).1,
    (cache_roundtrip_expiry.2.2 "k" (Json.str "r") 0 600001 [] h).2⟩

/-- C7: for every successful upstream response, a body longer than
800000 characters is clipped to exactly its prefix of that length, and
a body of at most that length passes through unchanged. -/
theorem fetch_truncation :
    ∀ (net : String → NetResp) (url : String), respOk (net url) = true →
      ((net url).body.length > MAX_HTML_LENGTH →
        fetchSiteHTML net url = .ok (jsSlice (net url).body MAX_HTML_LENGTH)
        ∧ (jsSlice (net url).body MAX_HTML_LENGTH).length = MAX_HTML_LENGTH
        ∧ (net url).body.data
            = (jsSlice (net url).body MAX_HTML_LENGTH).data
              ++ (net url).body.data.drop MAX_HTML_LENGTH)
      ∧ ((net url).body.length ≤ MAX_HTML_LENGTH → fetchSiteHTML net url = .ok (net url).body) := by
  intro net url hok
  constructor
  · intro hlen
    refine ⟨?_, ?_, ?_⟩
    · simp [fetchSiteHTML, hok, hlen]
    · show ((net url).body.data.take MAX_HTML_LENGTH).length = MAX_HTML_LENGTH
      rw [List.length_take]
      have h2 : MAX_HTML_LENGTH ≤ (net url).body.data.length := Nat.le_of_lt hlen
      omega
    · exact (List.take_append_drop MAX_HTML_LENGTH (net url).body.data).symm
  · intro hlen
    simp [fetchSiteHTML, hok, Nat.not_lt_of_le hlen]

def bigBody : String := String.mk (List.replicate 800001 'a')

def netBig : String → NetResp := fun _ => { status := 200, statusText := "OK", body := bigBody }

/-- Witness for the hypotheses of `fetch_truncation`. -/
theorem fetch_truncation_witness :
    respOk (netBig "https://example.com/") = true
    ∧ bigBody.length > MAX_HTML_LENGTH
    ∧ fetchSiteHTML netBig "https://example.com/" = .ok (jsSlice bigBody MAX_HTML_LENGTH)
    ∧ (jsSlice bigBody MAX_HTML_LENGTH).length = MAX_HTML_LENGTH := by
  have hok : respOk (netBig "https://example.com/") = true := rfl
  have hlen : bigBody.length > MAX_HTML_LENGTH := by
    show (List.replicate 800001 'a').length > MAX_HTML_LENGTH
    rw [List.length_replicate]
    decide
  have h := (fetch_truncation netBig "https://example.com/" hok).1 hlen
  exact ⟨hok, hlen, h.1, h.2.1⟩

/-! ## Orchestrator helper lemmas and mock services -/

/-- After successful validation, a lookup that misses (no entry, or an
entry whose value is falsy) sends the handler into the pipeline tail
with the post-lookup cache. -/
theorem analyze_of_validated (req : Option String) (now : Nat) (c : Cache)
    (net : String → NetResp) (gq : List Message → NetResp) (url : String)
    (h : normalizeUrl (jsTrim (jsOr req "")) = some url)
    (ha : isAllowedUrl url = true)
    (hmiss : ∀ v, (getCache url now c).1 = some v → jsTruthy v = false) :
    analyze req now c net gq = analyzeMiss url now (getCache url now c).2 net gq := by
  simp only [analyze, h, ha]
  rcases hg : (getCache url now c).1 with _ | v
  · simp [hg]
  · simp [hg, hmiss v hg]

/-- The pipeline tail responds 200 or 500. -/
theorem analyzeMiss_status (url : String) (now : Nat) (c1 : Cache) (net : String → NetResp)
    (gq : List Message → NetResp) :
    (analyzeMiss url now c1 net gq).status = 200 ∨ (analyzeMiss url now c1 net gq).status = 500 := by
  simp only [analyzeMiss]
  rcases hf : fetchSiteHTML net url with e | html
  · right; rfl
  · rcases hg : callGroq gq (buildPrompt url html) with ge | an
    · right; simp [hg]
    · left; simp [hg]

/-- A failing pipeline tail leaves the post-lookup cache untouched. -/
theorem analyzeMiss_500_cache (url : String) (now : Nat) (c1 : Cache) (net : String → NetResp)
    (gq : List Message → NetResp) :
    (analyzeMiss url now c1 net gq).status = 500 → (analyzeMiss url now c1 net gq).cache = c1 := by
  simp only [analyzeMiss]
  rcases hf : fetchSiteHTML net url with e | html
  · intro _; rfl
  · rcases hg : callGroq gq (buildPrompt url html) with ge | an
    · intro _; simp [hg]
    · intro h500; simp [hg] at h500

def netOkA : String → NetResp := fun _ => { status := 200, statusText := "OK", body := "<html>ok</html>" }

def net500 : String → NetResp := fun _ => { status := 500, statusText := "Internal Server Error", body := "" }

def gqBad : List Message → NetResp := fun _ => { status := 200, statusText := "OK", body := "not json" }

/-- A model-service response whose message content is the JSON text of
`analysisA`. -/
def gqOkA : List Message → NetResp := fun _ =>
  { status := 200, statusText := "OK",
    body := "\x7b\"choices\":[\x7b\"message\":\x7b\"content\":\"\x7b\\\"a\\\":1\x7d\"\x7d\x7d]\x7d" }

def analysisA : Json := Json.obj [("a", Json.num 1)]

/-- A model-service response whose message content is the JSON text
`null`. -/
def gqNull : List Message → NetResp := fun _ =>
  { status := 200, statusText := "OK",
    body := "\x7b\"choices\":[\x7b\"message\":\x7b\"content\":\"null\"\x7d\x7d]\x7d" }

def firstOut : AnalyzeOut := analyze (some "example.com") 0 [] netOkA gqOkA

def secondOut : AnalyzeOut := analyze (some "example.com") 0 firstOut.cache netOkA gqOkA

/-- C5: the error taxonomy of POST /analyze. Normalization failure is a
400 "Invalid URL" response; a disallowed address is a 400 "URL not
allowed" response; a fetch failure is a 500 carrying the fetch
diagnostic; a model failure is a 500 carrying the model diagnostic; and
every request receives a response (status 200, 400 or 500) — the model
of the handler is a total function, mirroring the catch that keeps any
error from being fatal to the process. -/
theorem analyze_error_taxonomy :
    ∀ (req : Option String) (now : Nat) (c : Cache) (net : String → NetResp)
      (gq : List Message → NetResp),
      (normalizeUrl (jsTrim (jsOr req "")) = none →
        analyze req now c net gq =
          { status := 400, body := errBody "Invalid URL", cache := c,
            fetchCalls := 0, groqCalls := 0 })
      ∧ (∀ url, normalizeUrl (jsTrim (jsOr req "")) = some url → isAllowedUrl url = false →
          analyze req now c net gq =
            { status := 400, body := errBody "URL not allowed", cache := c,
              fetchCalls := 0, groqCalls := 0 })
      ∧ (∀ url e, normalizeUrl (jsTrim (jsOr req "")) = some url → isAllowedUrl url = true →
          (∀ v, (getCache url now c).1 = some v → jsTruthy v = false) →
          fetchSiteHTML net url = .error e →
          analyze req now c net gq =
            { status := 500, body := errBody e, cache := (getCache url now c).2,
              fetchCalls := 1, groqCalls := 0 })
      ∧ (∀ url html ge, normalizeUrl (jsTrim (jsOr req "")) = some url → isAllowedUrl url = true →
          (∀ v, (getCache url now c).1 = some v → jsTruthy v = false) →
          fetchSiteHTML net url = .ok html →
          callGroq gq (buildPrompt url html) = .error ge →
          analyze req now c net gq =
            { status := 500, body := errBody (groqErrorMessage ge), cache := (getCache url now c).2,
              fetchCalls := 1, groqCalls := 1 })
      ∧ ((analyze req now c net gq).status = 200 ∨ (analyze req now c net gq).status = 400
          ∨ (analyze req now c net gq).status = 500) := by
  intro req now c net gq
  refine ⟨?_, ?_, ?_, ?_, ?_⟩
  · intro h; simp [analyze, h]
  · intro url h hn; simp [analyze, h, hn]
  · intro url e h ha hmiss hf
    rw [analyze_of_validated req now c net gq url h ha hmiss]
    simp [analyzeMiss, hf]
  · intro url html ge h ha hmiss hf hge
    rw [analyze_of_validated req now c net gq url h ha hmiss]
    simp [analyzeMiss, hf, hge]
  · rcases hn : normalizeUrl (jsTrim (jsOr req "")) with _ | url
    · right; left; simp [analyze, hn]
    · by_cases ha : isAllowedUrl url
      · rcases hg : (getCache url now c).1 with _ | v
        · have heq := analyze_of_validated req now c net gq url hn ha
            (by intro v hv; rw [hg] at hv; cases hv)
          rw [heq]
          rcases analyzeMiss_status url now (getCache url now c).2 net gq with h2 | h2
          · left; exact h2
          · right; right; exact h2
        · by_cases ht : jsTruthy v = true
          · left; simp [analyze, hn, ha, hg, ht]
          · have heq := analyze_of_validated req now c net gq url hn ha
              (by intro w hw; rw [hg] at hw; cases hw; exact Bool.not_eq_true _ ▸ eq_false_of_ne_true ht)
            rw [heq]
            rcases analyzeMiss_status url now (getCache url now c).2 net gq with h2 | h2
            · left; exact h2
            · right; right; exact h2
      · right; left
        simp [analyze, hn, eq_false_of_ne_true ha]

/-- Witness for the hypotheses of `analyze_error_taxonomy`: each branch
of the taxonomy exercised at a concrete request. -/
theorem analyze_error_taxonomy_witness :
    normalizeUrl (jsTrim (jsOr (some "%%") "")) = none
    ∧ analyze (some "%%") 0 [] netOkA gqBad =
        { status := 400, body := errBody "Invalid URL", cache := [], fetchCalls := 0, groqCalls := 0 }
    ∧ normalizeUrl (jsTrim (jsOr (some "localhost") "")) = some "https://localhost/"
    ∧ isAllowedUrl "https://localhost/" = false
    ∧ analyze (some "localhost") 0 [] netOkA gqBad =
        { status := 400, body := errBody "URL not allowed", cache := [], fetchCalls := 0, groqCalls := 0 }
    ∧ fetchSiteHTML net500 "https://example.com/"
        = .error "Upstream fetch failed: 500 Internal Server Error"
    ∧ analyze (some "example.com") 0 [] net500 gqBad =
        { status := 500, body := errBody "Upstream fetch failed: 500 Internal Server Error",
          cache := [], fetchCalls := 1, groqCalls := 0 }
    ∧ analyze (some "example.com") 0 [] netOkA gqBad =
        { status := 500, body := errBody "invalid json response body",
          cache := [], fetchCalls := 1, groqCalls := 1 } := by
  have hvac : ∀ v, (getCache "https://example.com/" 0 ([] : Cache)).1 = some v → jsTruthy v = false := by
    intro v hv; cases hv
  refine ⟨rfl, ?_, rfl, rfl, ?_, rfl, ?_, ?_⟩
  · exact (analyze_error_taxonomy (some "%%") 0 [] netOkA gqBad).1 rfl
  · exact (analyze_error_taxonomy (some "localhost") 0 [] netOkA gqBad).2.1
      "https://localhost/" rfl rfl
  · exact (analyze_error_taxonomy (some "example.com") 0 [] net500 gqBad).2.2.1
      "https://example.com/" "Upstream fetch failed: 500 Internal Server Error" rfl rfl hvac rfl
  · exact (analyze_error_taxonomy (some "example.com") 0 [] netOkA gqBad).2.2.2.1
      "https://example.com/" "<html>ok</html>" GroqError.invalidResponseJson rfl rfl hvac rfl rfl

/-- C6 (counterexample): a valid, unexpired cache entry whose stored
value is the JSON value `null` — reachable by a run in which the model
returned the text `null` — is NOT served: the claim's immediate
cached-response with no fetch and no model call fails, since the
handler re-runs the whole pipeline and answers `cached: false`. -/
theorem cache_hit_falsy_counterexample :
    (analyze (some "example.com") 0 [] netOkA gqNull).body = okBody false Json.null
    ∧ cacheFind (analyze (some "example.com") 0 [] netOkA gqNull).cache "https://example.com/"
        = some ⟨Json.null, CACHE_TTL_MS⟩
    ∧ (getCache "https://example.com/" 0 (analyze (some "example.com") 0 [] netOkA gqNull).cache).1
        = some Json.null
    ∧ (analyze (some "example.com") 0 (analyze (some "example.com") 0 [] netOkA gqNull).cache
        netOkA gqNull).fetchCalls = 1
    ∧ (analyze (some "example.com") 0 (analyze (some "example.com") 0 [] netOkA gqNull).cache
        netOkA gqNull).groqCalls = 1
    ∧ (analyze (some "example.com") 0 (analyze (some "example.com") 0 [] netOkA gqNull).cache
        netOkA gqNull).body = okBody false Json.null := by
  exact ⟨rfl, rfl, rfl, rfl, rfl, rfl⟩

/-- C6 (amended): a valid, unexpired cache entry whose stored value is
truthy (not JSON null, false, 0 or the empty string) is served
immediately with the cached-flag set and no fetch or model call; and in
the two-request scenario the first request answers `cached: false` with
one fetch and one model call, the second answers `cached: true` with
the identical data and zero further fetch or model calls. -/
theorem cache_hit_amended :
    (∀ (req : Option String) (now : Nat) (c : Cache) (net : String → NetResp)
       (gq : List Message → NetResp) (url : String) (v : Json),
       normalizeUrl (jsTrim (jsOr req "")) = some url → isAllowedUrl url = true →
       (getCache url now c).1 = some v → jsTruthy v = true →
       analyze req now c net gq =
         { status := 200, body := okBody true v, cache := (getCache url now c).2,
           fetchCalls := 0, groqCalls := 0 })
    ∧ (firstOut.status = 200 ∧ firstOut.body = okBody false analysisA
       ∧ firstOut.fetchCalls = 1 ∧ firstOut.groqCalls = 1
       ∧ secondOut.status = 200 ∧ secondOut.body = okBody true analysisA
       ∧ secondOut.fetchCalls = 0 ∧ secondOut.groqCalls = 0) := by
  constructor
  · intro req now c net gq url v h ha hg ht
    simp [analyze, h, ha, hg, ht]
  · exact ⟨rfl, rfl, rfl, rfl, rfl, rfl, rfl, rfl⟩

/-- Witness for the hypotheses of `cache_hit_amended`: the second
request of the scenario served from the cache through the quantified
part. -/
theorem cache_hit_amended_witness :
    (getCache "https://example.com/" 0 firstOut.cache).1 = some analysisA
    ∧ jsTruthy analysisA = true
    ∧ analyze (some "example.com") 0 firstOut.cache netOkA gqOkA =
        { status := 200, body := okBody true analysisA,
          cache := (getCache "https://example.com/" 0 firstOut.cache).2,
          fetchCalls := 0, groqCalls := 0 } := by
  have hg : (getCache "https://example.com/" 0 firstOut.cache).1 = some analysisA := rfl
  exact ⟨hg, rfl,
    cache_hit_amended.1 (some "example.com") 0 firstOut.cache netOkA gqOkA
      "https://example.com/" analysisA rfl rfl hg rfl⟩

/-- C8: the model client fails with the transport error (capturing
status, reason and body text) on a non-2xx service status; with a
no-content error when the response body is not JSON, when no content
field is extractable, or when the extracted content is falsy; with a
content-parse error — a constructor distinct from the transport
error — when the content does not parse as JSON; and otherwise returns
the parsed JSON value unchanged, with no validation beyond syntactic
validity. -/
theorem callGroq_error_cases :
    ∀ (gq : List Message → NetResp) (prompt : List Message),
      (respOk (gq prompt) = false →
        callGroq gq prompt
          = .error (.apiError (gq prompt).status (gq prompt).statusText (gq prompt).body))
      ∧ (respOk (gq prompt) = true → Json.parse (gq prompt).body = none →
        callGroq gq prompt = .error .invalidResponseJson)
      ∧ (∀ data, respOk (gq prompt) = true → Json.parse (gq prompt).body = some data →
          extractContent data = none → callGroq gq prompt = .error .noContent)
      ∧ (∀ data content, respOk (gq prompt) = true → Json.parse (gq prompt).body = some data →
          extractContent data = some content → jsTruthy content = false →
          callGroq gq prompt = .error .noContent)
      ∧ (∀ data s, respOk (gq prompt) = true → Json.parse (gq prompt).body = some data →
          extractContent data = some (.str s) → s ≠ "" → Json.parse s = none →
          callGroq gq prompt = .error (.contentParseError (.str s)))
      ∧ (∀ data s j, respOk (gq prompt) = true → Json.parse (gq prompt).body = some data →
          extractContent data = some (.str s) → s ≠ "" → Json.parse s = some j →
          callGroq gq prompt = .ok j)
      ∧ (∀ content st stx b, GroqError.contentParseError content ≠ GroqError.apiError st stx b) := by
  intro gq prompt
  refine ⟨?_, ?_, ?_, ?_, ?_, ?_, ?_⟩
  · intro hbad; simp [callGroq, hbad]
  · intro hok hj; simp [callGroq, hok, hj]
  · intro data hok hj hx; simp [callGroq, hok, hj, hx]
  · intro data content hok hj hx ht; simp [callGroq, hok, hj, hx, ht]
  · intro data s hok hj hx hs hp
    simp [callGroq, hok, hj, hx, jsTruthy, hs, parseContent, hp]
  · intro data s j hok hj hx hs hp
    simp [callGroq, hok, hj, hx, jsTruthy, hs, parseContent, hp]
  · intro content st stx b h; exact GroqError.noConfusion h

def gq503 : List Message → NetResp := fun _ =>
  { status := 503, statusText := "Service Unavailable", body := "busy" }

def gqNoContent : List Message → NetResp := fun _ =>
  { status := 200, statusText := "OK", body := "\x7b\"choices\":[]\x7d" }

def gqEmptyContent : List Message → NetResp := fun _ =>
  { status := 200, statusText := "OK",
    body := "\x7b\"choices\":[\x7b\"message\":\x7b\"content\":\"\"\x7d\x7d]\x7d" }

def gqBadContent : List Message → NetResp := fun _ =>
  { status := 200, statusText := "OK",
    body := "\x7b\"choices\":[\x7b\"message\":\x7b\"content\":\"oops\"\x7d\x7d]\x7d" }

/-- Witness for the hypotheses of `callGroq_error_cases`: every failure
mode and the success mode exercised at concrete responses. -/
theorem callGroq_error_cases_witness :
    callGroq gq503 [] = .error (.apiError 503 "Service Unavailable" "busy")
    ∧ callGroq gqBad [] = .error .invalidResponseJson
    ∧ callGroq gqNoContent [] = .error .noContent
    ∧ callGroq gqEmptyContent [] = .error .noContent
    ∧ callGroq gqBadContent [] = .error (.contentParseError (.str "oops"))
    ∧ callGroq gqOkA [] = .ok analysisA := by
  refine ⟨?_, ?_, ?_, ?_, ?_, ?_⟩
  · exact (callGroq_error_cases gq503 []).1 rfl
  · exact (callGroq_error_cases gqBad []).2.1 rfl rfl
  · exact (callGroq_error_cases gqNoContent []).2.2.1 (Json.obj [("choices", Json.arr [])])
      rfl rfl rfl
  · exact (callGroq_error_cases gqEmptyContent []).2.2.2.1
      (Json.obj [("choices", Json.arr [Json.obj [("message", Json.obj [("content", Json.str "")])]])])
      (Json.str "") rfl rfl rfl rfl
  · exact (callGroq_error_cases gqBadContent []).2.2.2.2.1
      (Json.obj [("choices", Json.arr [Json.obj [("message", Json.obj [("content", Json.str "oops")])]])])
      "oops" rfl rfl rfl (by decide) rfl
  · exact (callGroq_error_cases gqOkA []).2.2.2.2.2.1
      (Json.obj [("choices",
        Json.arr [Json.obj [("message", Json.obj [("content", Json.str "\x7b\"a\":1\x7d")])]])])
      "\x7b\"a\":1\x7d" analysisA rfl rfl rfl (by decide) rfl

/-- C10: after validation succeeds, a request that fails (responds 500,
i.e. fails during fetch, prompt building or model invocation) performs
no cache insertion or update: the final cache is exactly the
post-lookup cache, which differs from the initial cache at most by the
lazy deletion of an already-expired entry for the requested key. -/
theorem no_cache_write_on_failure :
    ∀ (req : Option String) (now : Nat) (c : Cache) (net : String → NetResp)
      (gq : List Message → NetResp) (url : String),
      normalizeUrl (jsTrim (jsOr req "")) = some url → isAllowedUrl url = true →
      (analyze req now c net gq).status = 500 →
        (analyze req now c net gq).cache = (getCache url now c).2
        ∧ ((getCache url now c).2 = c
            ∨ (∃ e, cacheFind c url = some e ∧ now > e.expires
                ∧ (getCache url now c).2 = eraseKey url c)) := by
  intro req now c net gq url h ha h500
  constructor
  · rcases hg : (getCache url now c).1 with _ | v
    · have heq := analyze_of_validated req now c net gq url h ha
        (by intro v hv; rw [hg] at hv; cases hv)
      rw [heq] at h500 ⊢
      exact analyzeMiss_500_cache url now (getCache url now c).2 net gq h500
    · by_cases ht : jsTruthy v = true
      · have heq : analyze req now c net gq =
            { status := 200, body := okBody true v, cache := (getCache url now c).2,
              fetchCalls := 0, groqCalls := 0 } := by
          simp [analyze, h, ha, hg, ht]
        rw [heq] at h500
        simp at h500
      · have heq := analyze_of_validated req now c net gq url h ha
          (by intro w hw; rw [hg] at hw; cases hw; exact eq_false_of_ne_true ht)
        rw [heq] at h500 ⊢
        exact analyzeMiss_500_cache url now (getCache url now c).2 net gq h500
  · rcases hf : cacheFind c url with _ | e
    · left; simp [getCache, hf]
    · by_cases he : now > e.expires
      · right; exact ⟨e, rfl, he, by simp [getCache, hf, he]⟩
      · left; simp [getCache, hf, he]

def expiredCache : Cache := [("https://example.com/", ⟨Json.str "old", 600000⟩)]

/-- Witness for the hypotheses of `no_cache_write_on_failure`: a failing
fetch at a time past the entry's expiry leaves only the lazy deletion. -/
theorem no_cache_write_on_failure_witness :
    normalizeUrl (jsTrim (jsOr (some "example.com") "")) = some "https://example.com/"
    ∧ isAllowedUrl "https://example.com/" = true
    ∧ (analyze (some "example.com") 700000 expiredCache net500 gqBad).status = 500
    ∧ (analyze (some "example.com") 700000 expiredCache net500 gqBad).cache
        = (getCache "https://example.com/" 700000 expiredCache).2
    ∧ ((getCache "https://example.com/" 700000 expiredCache).2 = expiredCache
        ∨ (∃ e, cacheFind expiredCache "https://example.com/" = some e ∧ 700000 > e.expires
            ∧ (getCache "https://example.com/" 700000 expiredCache).2
                = eraseKey "https://example.com/" expiredCache)) := by
  have h := no_cache_write_on_failure (some "example.com") 700000 expiredCache net500 gqBad
    "https://example.com/" rfl rfl rfl
  exact ⟨rfl, rfl, rfl, h.1, h.2⟩

end ResearchWeb
